import Mathlib

/-!
# QPLUM::DenseMatrix (fast_row_access_matrix.hpp)

A shallow embedding of the ring-buffer matrix template `DenseMatrix<A_Type>`.

* The heap block `memblock_` is an `Option (List α)`: `none` is `nullptr`, `some l` is an
  allocated block whose elements are `l`.
* The three `unsigned int` members are natural numbers; every `unsigned int` operation of the
  source is followed by an explicit reduction modulo `2^32` (`u32`).
* Behaviour the C++ standard leaves undefined (null block, `% 0`, an access outside the
  block or outside the destination buffer) is the result `none`.
* `operator new[]` and the contents of fresh storage belong to the runtime and are a
  parameter (`Heap`).
-/

namespace QPLUM

/-- The macro `MAX_ELEMENTS` (line 6). -/
def MAX_ELEMENTS : Nat := 1000000

/-- Number of values of an `unsigned int` (32 bits). -/
def UINT_RANGE : Nat := 4294967296

/-- Wrap-around of `unsigned int` arithmetic. -/
def u32 (n : Nat) : Nat := n % UINT_RANGE

/-- Conversion `unsigned int` to `int` as done by `int num_elements = ...`
(two's complement reinterpretation). -/
def to_int (n : Nat) : Int :=
  if n < 2147483648 then (n : Int) else (n : Int) - 4294967296

/-- The exceptions the class can raise: `throw exception` with a `std::bad_alloc` object
(lines 40-41 and 66-67), and what `new A_Type [ n ]` itself throws. -/
inductive CppException where
  | bad_alloc
  | bad_array_new_length
deriving DecidableEq

/-- The runtime allocator: `grants n` tells whether a request for `n` elements is satisfied,
`junk i` is the (indeterminate) value found at position `i` of a fresh block. -/
structure Heap (α : Type) where
  grants : Nat → Bool
  junk : Nat → α

/-- The expression `new A_Type [ n ]` for an `int` length `n`: no initialisation of the
elements takes place for the numeric element types the class is used with. -/
def new_array {α : Type} (h : Heap α) (n : Int) : Except CppException (List α) :=
  if n < 0 then Except.error CppException.bad_array_new_length
  else if h.grants n.toNat then Except.ok ((List.range n.toNat).map h.junk)
  else Except.error CppException.bad_alloc

/-- The effect of `memset( block + start, 0, n * sizeof( A_Type ) )` on a block that contains
the range: elements `start .. start + n - 1` become zero, the others are kept. -/
def memset_zero {α : Type} [Zero α] (l : List α) (start n : Nat) : List α :=
  l.take start ++ List.replicate n 0 ++ l.drop (start + n)

/-- The effect of `memcpy( dst, block + start, n * sizeof( A_Type ) )` on the destination,
when both ranges exist: its first `n` elements become `block[start .. start + n - 1]`. -/
def memcpy_from {α : Type} (dst l : List α) (start n : Nat) : List α :=
  (l.drop start).take n ++ dst.drop n

/-- The data members of `DenseMatrix` (lines 18-21). -/
structure DenseMatrix (α : Type) where
  memblock_ : Option (List α)
  oldest_row_index_ : Nat
  num_rows_ : Nat
  num_columns_ : Nat
deriving DecidableEq

namespace DenseMatrix

variable {α : Type}

/-- The default constructor `DenseMatrix ( )` (lines 24-29). -/
def construct_default : DenseMatrix α :=
  { memblock_ := none, oldest_row_index_ := 0, num_rows_ := 0, num_columns_ := 0 }

/-- The constructor `DenseMatrix ( num_rows, num_columns )` (lines 31-45). A constructor that
throws leaves no object behind, hence `Except`. -/
def construct [Zero α] (h : Heap α) (num_rows num_columns : Nat) :
    Except CppException (DenseMatrix α) :=
  let num_elements : Int := to_int (u32 (num_rows * num_columns))
  if num_elements > (MAX_ELEMENTS : Int) then Except.error CppException.bad_alloc
  else
    match new_array h num_elements with
    | Except.error e => Except.error e
    | Except.ok blk =>
      Except.ok { memblock_ := some (memset_zero blk 0 num_elements.toNat),
                  oldest_row_index_ := 0,
                  num_rows_ := num_rows, num_columns_ := num_columns }

/-- The member `initialize` (lines 58-80), spelt `initialise` here because the source's
spelling is a reserved word. The object outlives a throw, so the result is the state of the
object together with the exception raised, if any. -/
def initialise (h : Heap α) (m : DenseMatrix α) (num_rows num_columns : Nat) :
    DenseMatrix α × Option CppException :=
  let m1 := { m with num_rows_ := num_rows, num_columns_ := num_columns }
  let num_elements : Int := to_int (u32 (m1.num_rows_ * m1.num_columns_))
  if num_elements > (MAX_ELEMENTS : Int) then (m1, some CppException.bad_alloc)
  else
    match m1.memblock_ with
    | none =>
      match new_array h num_elements with
      | Except.error e => (m1, some e)
      | Except.ok blk => ({ m1 with memblock_ := some blk }, none)
    | some _ => (m1, none)

/-- The subexpression `( row_index + oldest_row_index_ ) % num_rows_`: the physical row a
logical row resolves to (meaningful when `num_rows_` is not zero). -/
def physical_row (m : DenseMatrix α) (row_index : Nat) : Nat :=
  u32 (row_index + m.oldest_row_index_) % m.num_rows_

/-- The pointer offset `( ( row_index + oldest_row_index_ ) % num_rows_ ) * num_columns_`
used by `copy_row` and `set_row_to_zero`. -/
def row_start (m : DenseMatrix α) (row_index : Nat) : Nat :=
  u32 (m.physical_row row_index * m.num_columns_)

/-- The subscript
`( ( row_index + oldest_row_index_ ) % num_rows_ ) * num_columns_ + column_index`
of both `operator()` overloads. -/
def elem_index (m : DenseMatrix α) (row_index column_index : Nat) : Nat :=
  u32 (m.row_start row_index + column_index)

/-- The `const` overload of `operator()` (lines 101-112): the value read. -/
def get (m : DenseMatrix α) (row_index column_index : Nat) : Option α :=
  match m.memblock_ with
  | none => none
  | some l =>
    if m.num_rows_ = 0 then none
    else l[m.elem_index row_index column_index]?

/-- The mutable overload of `operator()` (lines 85-96) followed by an assignment through the
reference it returns: `m( row_index, column_index ) = v`. -/
def put (m : DenseMatrix α) (row_index column_index : Nat) (v : α) : Option (DenseMatrix α) :=
  match m.memblock_ with
  | none => none
  | some l =>
    if m.num_rows_ = 0 then none
    else if m.elem_index row_index column_index < l.length then
      some { m with memblock_ := some (l.set (m.elem_index row_index column_index) v) }
    else none

/-- The getter `num_rows` (lines 115-118). -/
def num_rows (m : DenseMatrix α) : Nat := m.num_rows_

/-- The getter `num_cols` (lines 121-124). -/
def num_cols (m : DenseMatrix α) : Nat := m.num_columns_

/-- The member `copy_row` (lines 127-130). It is `const`: the matrix is handed back as is,
next to the new contents of the destination buffer. -/
def copy_row (m : DenseMatrix α) (row_index : Nat) (row_ptr : List α) :
    Option (DenseMatrix α × List α) :=
  match m.memblock_ with
  | none => none
  | some l =>
    if m.num_rows_ = 0 then none
    else if m.row_start row_index + m.num_columns_ ≤ l.length
        ∧ m.num_columns_ ≤ row_ptr.length then
      some (m, memcpy_from row_ptr l (m.row_start row_index) m.num_columns_)
    else none

/-- The member `roll_right` (lines 133-136). -/
def roll_right (m : DenseMatrix α) : Option (DenseMatrix α) :=
  if m.num_rows_ = 0 then none
  else some { m with oldest_row_index_ := u32 (m.oldest_row_index_ + 1) % m.num_rows_ }

/-- The member `set_row_to_zero` (lines 139-142). -/
def set_row_to_zero [Zero α] (m : DenseMatrix α) (row_index : Nat) : Option (DenseMatrix α) :=
  match m.memblock_ with
  | none => none
  | some l =>
    if m.num_rows_ = 0 then none
    else if m.row_start row_index + m.num_columns_ ≤ l.length then
      some { m with memblock_ := some (memset_zero l (m.row_start row_index) m.num_columns_) }
    else none

/-- Calling `roll_right` `n` times in a row. -/
def roll_right_times : Nat → DenseMatrix α → Option (DenseMatrix α)
  | 0, m => some m
  | n + 1, m =>
    match roll_right m with
    | none => none
    | some m1 => roll_right_times n m1

/-- The Ready state of the data model: storage has been allocated, it holds
`num_rows_ * num_columns_` elements, that count is one the constructor accepts
(at most `MAX_ELEMENTS`), the rotation offset designates a row, and the row count is a value
of its type `unsigned int`. -/
structure Ready (m : DenseMatrix α) : Prop where
  storage : ∃ l, m.memblock_ = some l ∧ l.length = m.num_rows_ * m.num_columns_
  ceiling : m.num_rows_ * m.num_columns_ ≤ MAX_ELEMENTS
  offset : m.num_rows_ = 0 ∨ m.oldest_row_index_ < m.num_rows_
  rows_typed : m.num_rows_ < UINT_RANGE

/-- The shape of an `R` x `C` matrix of the data model: the dimensions are `R` and `C`, the
block holds `R * C` elements, a count the constructor accepts, and the rotation offset
designates one of the `R` rows. -/
structure Shaped (m : DenseMatrix α) (R C : Nat) : Prop where
  rows : m.num_rows_ = R
  columns : m.num_columns_ = C
  storage : ∃ l, m.memblock_ = some l ∧ l.length = R * C
  ceiling : R * C ≤ MAX_ELEMENTS
  offset : m.oldest_row_index_ < R

end DenseMatrix

/-! ## Sequences of calls -/

/-- One call of a public member by the owner of a matrix. -/
inductive Op (α : Type) where
  | write (row_index column_index : Nat) (v : α)
  | copy_row (row_index : Nat) (row_ptr : List α)
  | roll_right
  | set_row_to_zero (row_index : Nat)
  | initialise (num_rows num_columns : Nat)

/-- A call with valid arguments for an `R` x `C` matrix: coordinates inside the matrix, a
destination buffer of at least `C` elements. A repeated `initialize` is not among them. -/
def Op.valid {α : Type} (R C : Nat) : Op α → Bool
  | Op.write r c _ => decide (r < R) && decide (c < C)
  | Op.copy_row r buf => decide (r < R) && decide (C ≤ buf.length)
  | Op.roll_right => true
  | Op.set_row_to_zero r => decide (r < R)
  | Op.initialise _ _ => false

/-- The matrix after one call; `none` when the call has undefined behaviour. A throwing
`initialize` leaves the object in the state it had reached. -/
def step {α : Type} [Zero α] (h : Heap α) (m : DenseMatrix α) : Op α → Option (DenseMatrix α)
  | Op.write r c v => m.put r c v
  | Op.copy_row r buf => (m.copy_row r buf).map Prod.fst
  | Op.roll_right => m.roll_right
  | Op.set_row_to_zero r => m.set_row_to_zero r
  | Op.initialise rows columns => some (m.initialise h rows columns).1

/-- The matrix after a sequence of calls. -/
def run {α : Type} [Zero α] (h : Heap α) : List (Op α) → DenseMatrix α → Option (DenseMatrix α)
  | [], m => some m
  | op :: ops, m =>
    match step h m op with
    | none => none
    | some m1 => run h ops m1

/-! ## The limit condition as the specification words it -/

/-- The product `rows * columns` reduced modulo `2^32` and reinterpreted as a signed 32-bit
integer, written with the balanced remainder and independently of `u32` and `to_int`. -/
def wrapped_signed_product (rows columns : Nat) : Int :=
  Int.bmod ((rows * columns : Nat) : Int) 4294967296

/-! ## Concrete matrices used as examples -/

/-- An allocator that denies every request. -/
def stingy_heap : Heap Int :=
  { grants := fun _ => false, junk := fun _ => 0 }

/-- A sequence of valid calls on a 3 x 2 matrix. -/
def sample_calls : List (Op Int) :=
  [Op.write 0 0 5, Op.roll_right, Op.copy_row 2 [9, 9, 9], Op.set_row_to_zero 2,
   Op.roll_right, Op.write 1 1 4]

/-- An allocator that grants every request and whose fresh storage holds the value 7. -/
def generous_heap : Heap Int :=
  { grants := fun _ => true, junk := fun _ => 7 }

/-- The matrix `scenario_matrix` after the calls `sample_calls`. -/
def scenario_after_calls : DenseMatrix Int :=
  { memblock_ := some [0, 4, 0, 0, 0, 0], oldest_row_index_ := 2,
    num_rows_ := 3, num_columns_ := 2 }

/-- A 3 x 2 matrix of integers whose rotation offset is 1. -/
def sample_matrix : DenseMatrix Int :=
  { memblock_ := some [1, 2, 3, 4, 5, 6], oldest_row_index_ := 1,
    num_rows_ := 3, num_columns_ := 2 }

/-- The 3 x 2 matrix of the scenario, after 5 has been written at logical (0,0). -/
def scenario_matrix : DenseMatrix Int :=
  { memblock_ := some [5, 0, 0, 0, 0, 0], oldest_row_index_ := 0,
    num_rows_ := 3, num_columns_ := 2 }

/-- A matrix of `2^32 - 1` rows and no column, as built by the constructor and rotated
`2^32 - 3` times. -/
def wide_matrix : DenseMatrix Int :=
  { memblock_ := some [], oldest_row_index_ := 4294967293,
    num_rows_ := 4294967295, num_columns_ := 0 }

end QPLUM

namespace QPLUM

variable {α : Type}

/-! ## Arithmetic of the subscript -/

theorem u32_of_lt {n : Nat} (h : n < UINT_RANGE) : u32 n = n := by
  unfold u32
  exact Nat.mod_eq_of_lt h

theorem u32_le (n : Nat) : u32 n ≤ n := by
  unfold u32
  exact Nat.mod_le n UINT_RANGE

theorem physical_row_lt (m : DenseMatrix α) (r : Nat) (hrows : m.num_rows_ ≠ 0) :
    m.physical_row r < m.num_rows_ := by
  unfold DenseMatrix.physical_row
  exact Nat.mod_lt _ (Nat.pos_of_ne_zero hrows)

/-- A whole row fits below `rows * columns`. -/
theorem row_fits {p R C : Nat} (hp : p < R) : p * C + C ≤ R * C := by
  have h : (p + 1) * C ≤ R * C := Nat.mul_le_mul_right C hp
  rw [Nat.add_mul, Nat.one_mul] at h
  exact h

theorem row_start_eq (m : DenseMatrix α) (r : Nat) (hrows : m.num_rows_ ≠ 0)
    (hceil : m.num_rows_ * m.num_columns_ ≤ MAX_ELEMENTS) :
    m.row_start r = m.physical_row r * m.num_columns_ := by
  have hp := physical_row_lt m r hrows
  have hfit := row_fits (C := m.num_columns_) hp
  unfold DenseMatrix.row_start
  apply u32_of_lt
  unfold MAX_ELEMENTS at hceil
  unfold UINT_RANGE
  omega

theorem row_start_fits (m : DenseMatrix α) (r : Nat) (hrows : m.num_rows_ ≠ 0)
    (hceil : m.num_rows_ * m.num_columns_ ≤ MAX_ELEMENTS) :
    m.row_start r + m.num_columns_ ≤ m.num_rows_ * m.num_columns_ := by
  rw [row_start_eq m r hrows hceil]
  exact row_fits (physical_row_lt m r hrows)

theorem elem_index_eq (m : DenseMatrix α) (r c : Nat) (hrows : m.num_rows_ ≠ 0)
    (hceil : m.num_rows_ * m.num_columns_ ≤ MAX_ELEMENTS) (hc : c < m.num_columns_) :
    m.elem_index r c = m.row_start r + c := by
  have hfit := row_start_fits m r hrows hceil
  unfold DenseMatrix.elem_index
  apply u32_of_lt
  unfold MAX_ELEMENTS at hceil
  unfold UINT_RANGE
  omega

theorem elem_index_lt (m : DenseMatrix α) (r c : Nat) (hrows : m.num_rows_ ≠ 0)
    (hceil : m.num_rows_ * m.num_columns_ ≤ MAX_ELEMENTS) (hc : c < m.num_columns_) :
    m.elem_index r c < m.num_rows_ * m.num_columns_ := by
  have hfit := row_start_fits m r hrows hceil
  rw [elem_index_eq m r c hrows hceil hc]
  omega

/-! ## The block operations on lists -/

theorem memset_zero_length [Zero α] (l : List α) (s n : Nat) (h : s + n ≤ l.length) :
    (memset_zero l s n).length = l.length := by
  unfold memset_zero
  simp only [List.length_append, List.length_take, List.length_replicate, List.length_drop]
  omega

theorem memset_zero_inside [Zero α] (l : List α) (s n c : Nat) (h : s + n ≤ l.length)
    (hc : c < n) : (memset_zero l s n)[s + c]? = some 0 := by
  unfold memset_zero
  have h1 : (List.take s l).length = s := by
    rw [List.length_take]; omega
  rw [List.append_assoc]
  rw [List.getElem?_append_right (by omega)]
  rw [h1, Nat.add_sub_cancel_left]
  rw [List.getElem?_append_left (by simpa using hc)]
  exact List.getElem?_replicate_of_lt hc

theorem memset_zero_whole [Zero α] (l : List α) :
    memset_zero l 0 l.length = List.replicate l.length 0 := by
  unfold memset_zero
  simp

theorem memcpy_from_copied (dst l : List α) (s n c : Nat) (h : s + n ≤ l.length)
    (hc : c < n) : (memcpy_from dst l s n)[c]? = l[s + c]? := by
  unfold memcpy_from
  have h1 : ((List.drop s l).take n).length = n := by
    rw [List.length_take, List.length_drop]; omega
  rw [List.getElem?_append_left (by omega)]
  rw [List.getElem?_take_of_lt hc, List.getElem?_drop]

theorem memcpy_from_rest (dst l : List α) (s n i : Nat) (h : s + n ≤ l.length)
    (hi : n ≤ i) : (memcpy_from dst l s n)[i]? = dst[i]? := by
  unfold memcpy_from
  have h1 : ((List.drop s l).take n).length = n := by
    rw [List.length_take, List.length_drop]; omega
  rw [List.getElem?_append_right (by omega)]
  rw [h1, List.getElem?_drop]
  congr 1
  omega

theorem memcpy_from_length (dst l : List α) (s n : Nat) (h : s + n ≤ l.length)
    (hd : n ≤ dst.length) : (memcpy_from dst l s n).length = dst.length := by
  unfold memcpy_from
  rw [List.length_append, List.length_take, List.length_drop, List.length_drop]
  omega

/-! ## Reading and writing one element -/

theorem put_ok (m : DenseMatrix α) (l : List α) (r c : Nat) (v : α)
    (hm : m.memblock_ = some l) (hrows : m.num_rows_ ≠ 0)
    (hi : m.elem_index r c < l.length) :
    m.put r c v = some { m with memblock_ := some (l.set (m.elem_index r c) v) } := by
  unfold DenseMatrix.put
  rw [hm]
  simp only [hrows, if_false, hi, if_true]

theorem get_ok (m : DenseMatrix α) (l : List α) (r c : Nat)
    (hm : m.memblock_ = some l) (hrows : m.num_rows_ ≠ 0) :
    m.get r c = l[m.elem_index r c]? := by
  unfold DenseMatrix.get
  rw [hm]
  simp only [hrows, if_false]

theorem sample_matrix_ready : sample_matrix.Ready :=
  ⟨⟨[1, 2, 3, 4, 5, 6], rfl, rfl⟩, by decide, Or.inr (by decide), by decide⟩

/-- C1: on a Ready matrix with at least one row and one column and a rotation offset below
the row count, assigning `v` through the mutable `operator()` at a valid coordinate succeeds,
and the `const` `operator()` then reads `v` at that coordinate. -/
theorem C1_write_read_round_trip (m : DenseMatrix α) (r c : Nat) (v : α)
    (hready : m.Ready) (hR : 1 ≤ m.num_rows_) (_hC : 1 ≤ m.num_columns_)
    (_hoff : m.oldest_row_index_ < m.num_rows_)
    (_hr : r < m.num_rows_) (hc : c < m.num_columns_) :
    ∃ m1, m.put r c v = some m1 ∧ m1.get r c = some v := by
  obtain ⟨l, hm, hlen⟩ := hready.storage
  have hrows : m.num_rows_ ≠ 0 := by omega
  have hi : m.elem_index r c < l.length := by
    rw [hlen]
    exact elem_index_lt m r c hrows hready.ceiling hc
  refine ⟨_, put_ok m l r c v hm hrows hi, ?_⟩
  have hg := get_ok { m with memblock_ := some (l.set (m.elem_index r c) v) }
    (l.set (m.elem_index r c) v) r c rfl hrows
  rw [hg]
  show (l.set (m.elem_index r c) v)[m.elem_index r c]? = some v
  rw [List.getElem?_set_self hi]

theorem C1_write_read_round_trip_witness :
    ∃ m1, sample_matrix.put 2 1 7 = some m1 ∧ m1.get 2 1 = some 7 :=
  C1_write_read_round_trip sample_matrix 2 1 7 sample_matrix_ready (by decide) (by decide)
    (by decide) (by decide) (by decide)

/-! ## Rotation -/

theorem roll_right_ok (m : DenseMatrix α) (hR : 1 ≤ m.num_rows_)
    (hoff : m.oldest_row_index_ < m.num_rows_) (hlim : m.num_rows_ < UINT_RANGE) :
    m.roll_right
      = some { m with oldest_row_index_ := (m.oldest_row_index_ + 1) % m.num_rows_ } := by
  have hrows : m.num_rows_ ≠ 0 := by omega
  unfold DenseMatrix.roll_right
  rw [u32_of_lt (by omega)]
  simp only [hrows, if_false]

theorem roll_right_times_ok (n : Nat) (m : DenseMatrix α) (hR : 1 ≤ m.num_rows_)
    (hoff : m.oldest_row_index_ < m.num_rows_) (hlim : m.num_rows_ < UINT_RANGE) :
    m.roll_right_times n
      = some { m with oldest_row_index_ := (m.oldest_row_index_ + n) % m.num_rows_ } := by
  induction n generalizing m with
  | zero =>
    unfold DenseMatrix.roll_right_times
    rw [Nat.add_zero, Nat.mod_eq_of_lt hoff]
  | succ k ih =>
    unfold DenseMatrix.roll_right_times
    rw [roll_right_ok m hR hoff hlim]
    have hpos : 0 < m.num_rows_ := hR
    have h := ih { m with oldest_row_index_ := (m.oldest_row_index_ + 1) % m.num_rows_ }
      hR (Nat.mod_lt _ hpos) hlim
    simp only at h ⊢
    rw [h, Nat.mod_add_mod]
    have e : m.oldest_row_index_ + 1 + k = m.oldest_row_index_ + (k + 1) := by omega
    rw [e]

/-- With at most `2^31` rows the sum `row_index + oldest_row_index_` of two values below the
row count does not wrap. -/
theorem physical_row_no_wrap (m : DenseMatrix α) (r : Nat) (hr : r < m.num_rows_)
    (hoff : m.oldest_row_index_ < m.num_rows_) (hlim : m.num_rows_ ≤ 2147483648) :
    m.physical_row r = (r + m.oldest_row_index_) % m.num_rows_ := by
  unfold DenseMatrix.physical_row
  rw [u32_of_lt (by unfold UINT_RANGE; omega)]

/-- The value read depends on the row only through the physical row. -/
theorem get_congr_row (m m1 : DenseMatrix α) (r r1 c : Nat)
    (hblk : m1.memblock_ = m.memblock_) (hrows : m1.num_rows_ = m.num_rows_)
    (hcols : m1.num_columns_ = m.num_columns_)
    (hrow : m1.physical_row r1 = m.physical_row r) :
    m1.get r1 c = m.get r c := by
  unfold DenseMatrix.get DenseMatrix.elem_index DenseMatrix.row_start
  rw [hblk, hrows, hcols, hrow]

/-- The matrix `wide_matrix` is a state the class reaches: the constructor accepts
`( 4294967295, 0 )` (the product is 0), and `2^32 - 3` calls of `roll_right` follow. -/
theorem wide_matrix_reached :
    ∃ m0, DenseMatrix.construct generous_heap 4294967295 0 = Except.ok m0
      ∧ m0.roll_right_times 4294967293 = some wide_matrix :=
  ⟨_, rfl, roll_right_times_ok 4294967293
    { memblock_ := some [], oldest_row_index_ := 0, num_rows_ := 4294967295,
      num_columns_ := 0 } (by decide) (by decide) (by decide)⟩

/-- C2, refuted as stated: on a matrix of `2^32 - 1` rows with rotation offset `2^32 - 3`
(which is Ready, has at least one row and an offset below the row count), one `roll_right`
makes logical row `2^32 - 2` resolve to physical row `2^32 - 4`, whereas logical row
`(2^32 - 2 + 1) mod (2^32 - 1) = 0` resolved to physical row `2^32 - 3` before: the
32-bit sum `row_index + oldest_row_index_` wraps. -/
theorem C2_rotation_counterexample :
    wide_matrix.Ready ∧ 1 ≤ wide_matrix.num_rows_
      ∧ wide_matrix.oldest_row_index_ < wide_matrix.num_rows_
      ∧ 4294967294 < wide_matrix.num_rows_
      ∧ wide_matrix.roll_right_times 1
          = some { wide_matrix with oldest_row_index_ := 4294967294 }
      ∧ DenseMatrix.physical_row { wide_matrix with oldest_row_index_ := 4294967294 }
          4294967294 = 4294967292
      ∧ wide_matrix.physical_row ((4294967294 + 1) % wide_matrix.num_rows_) = 4294967293 := by
  refine ⟨⟨⟨[], rfl, rfl⟩, by decide, Or.inr (by decide), by decide⟩, by decide, by decide,
    by decide, ?_, ?_, ?_⟩
  · rfl
  · rfl
  · rfl

/-- C2, amended: on a matrix with between 1 and `2^31` rows whose rotation offset is below the
row count, `N` calls of `roll_right` succeed, and afterwards every logical row `r` below the
row count resolves to the physical row that logical row `(r + N) mod R` resolved to before;
hence the read at `(r, c)` afterwards equals the read at `((r + N) mod R, c)` before, for
every column. -/
theorem C2_rotation_invariant (m : DenseMatrix α) (N r : Nat)
    (hR : 1 ≤ m.num_rows_) (hlim : m.num_rows_ ≤ 2147483648)
    (hoff : m.oldest_row_index_ < m.num_rows_) (hr : r < m.num_rows_) :
    ∃ m1, m.roll_right_times N = some m1
      ∧ m1.physical_row r = m.physical_row ((r + N) % m.num_rows_)
      ∧ ∀ c, c < m.num_columns_ → m1.get r c = m.get ((r + N) % m.num_rows_) c := by
  have hpos : 0 < m.num_rows_ := hR
  have hroll := roll_right_times_ok N m hR hoff (by unfold UINT_RANGE; omega)
  have hrow : DenseMatrix.physical_row
        { m with oldest_row_index_ := (m.oldest_row_index_ + N) % m.num_rows_ } r
      = m.physical_row ((r + N) % m.num_rows_) := by
    have h1 := physical_row_no_wrap
      { m with oldest_row_index_ := (m.oldest_row_index_ + N) % m.num_rows_ } r hr
      (Nat.mod_lt _ hpos) hlim
    rw [h1, physical_row_no_wrap m _ (Nat.mod_lt _ hpos) hoff hlim]
    simp only
    rw [Nat.add_mod_mod, Nat.mod_add_mod]
    congr 1
    omega
  exact ⟨_, hroll, hrow, fun c _ => get_congr_row m _ _ r c rfl rfl rfl hrow⟩

theorem C2_rotation_invariant_witness :
    ∃ m1, sample_matrix.roll_right_times 5 = some m1
      ∧ m1.physical_row 2 = sample_matrix.physical_row ((2 + 5) % sample_matrix.num_rows_)
      ∧ ∀ c, c < sample_matrix.num_columns_ →
          m1.get 2 c = sample_matrix.get ((2 + 5) % sample_matrix.num_rows_) c :=
  C2_rotation_invariant sample_matrix 5 2 (by decide) (by decide) (by decide) (by decide)

/-! ## Whole-row operations -/

theorem get_some (m : DenseMatrix α) (l : List α) (r c : Nat)
    (hm : m.memblock_ = some l) (hlen : l.length = m.num_rows_ * m.num_columns_)
    (hrows : m.num_rows_ ≠ 0) (hceil : m.num_rows_ * m.num_columns_ ≤ MAX_ELEMENTS)
    (hc : c < m.num_columns_) :
    m.get r c = l[m.row_start r + c]? ∧ ∃ x, m.get r c = some x := by
  have hi := elem_index_lt m r c hrows hceil hc
  rw [get_ok m l r c hm hrows, elem_index_eq m r c hrows hceil hc]
  rw [elem_index_eq m r c hrows hceil hc, ← hlen] at hi
  exact ⟨rfl, ⟨_, List.getElem?_eq_getElem hi⟩⟩

theorem set_row_to_zero_ok [Zero α] (m : DenseMatrix α) (l : List α) (r : Nat)
    (hm : m.memblock_ = some l) (hlen : l.length = m.num_rows_ * m.num_columns_)
    (hrows : m.num_rows_ ≠ 0) (hceil : m.num_rows_ * m.num_columns_ ≤ MAX_ELEMENTS) :
    m.set_row_to_zero r
      = some { m with
          memblock_ := some (memset_zero l (m.row_start r) m.num_columns_) } := by
  have hfit : m.row_start r + m.num_columns_ ≤ l.length := by
    rw [hlen]
    exact row_start_fits m r hrows hceil
  unfold DenseMatrix.set_row_to_zero
  rw [hm]
  simp only [hrows, if_false, hfit, if_true]

theorem set_row_to_zero_reads_zero [Zero α] (m : DenseMatrix α) (l : List α) (r c : Nat)
    (hlen : l.length = m.num_rows_ * m.num_columns_)
    (hrows : m.num_rows_ ≠ 0) (hceil : m.num_rows_ * m.num_columns_ ≤ MAX_ELEMENTS)
    (hc : c < m.num_columns_) :
    DenseMatrix.get
      { m with memblock_ := some (memset_zero l (m.row_start r) m.num_columns_) } r c
      = some 0 := by
  have hfit : m.row_start r + m.num_columns_ ≤ l.length := by
    rw [hlen]
    exact row_start_fits m r hrows hceil
  have hg := get_ok
    { m with memblock_ := some (memset_zero l (m.row_start r) m.num_columns_) }
    (memset_zero l (m.row_start r) m.num_columns_) r c rfl hrows
  rw [hg]
  show (memset_zero l (m.row_start r) m.num_columns_)[m.elem_index r c]? = some 0
  rw [elem_index_eq m r c hrows hceil hc]
  exact memset_zero_inside l _ _ c hfit hc

theorem scenario_matrix_ready : scenario_matrix.Ready :=
  ⟨⟨[5, 0, 0, 0, 0, 0], rfl, rfl⟩, by decide, Or.inr (by decide), by decide⟩

/-- The scenario of the specification, traced on the code: the constructor builds the 3 x 2
zero matrix, writing 5 at (0,0) gives `scenario_matrix`, and after `roll_right` the read at
(2,0) is 5 until `set_row_to_zero( 2 )`, after which it is 0. -/
theorem scenario_trace :
    (∃ m0, DenseMatrix.construct generous_heap 3 2 = Except.ok m0
        ∧ m0.put 0 0 5 = some scenario_matrix)
      ∧ ∃ m1, scenario_matrix.roll_right = some m1 ∧ m1.get 2 0 = some 5
        ∧ ∃ m2, m1.set_row_to_zero 2 = some m2 ∧ m2.get 2 0 = some 0 :=
  ⟨⟨_, rfl, rfl⟩, ⟨_, rfl, rfl, ⟨_, rfl, rfl⟩⟩⟩

/-- C3: on a Ready matrix with at least one row, `roll_right` succeeds, the new rotation
offset is `(offset + 1) mod R`, and the storage, the row count and the column count are the
old ones; logical row `R - 1` then reads, in every column, the value logical row 0 read
before; and `set_row_to_zero( R - 1 )` on the rotated matrix succeeds and makes every column
of logical row `R - 1` read zero. -/
theorem C3_roll_right_moves_no_data [Zero α] (m : DenseMatrix α)
    (hready : m.Ready) (hR : 1 ≤ m.num_rows_) :
    ∃ m1, m.roll_right = some m1
      ∧ m1.oldest_row_index_ = (m.oldest_row_index_ + 1) % m.num_rows_
      ∧ m1.memblock_ = m.memblock_
      ∧ m1.num_rows_ = m.num_rows_ ∧ m1.num_columns_ = m.num_columns_
      ∧ (∀ c, c < m.num_columns_ →
          ∃ x, m.get 0 c = some x ∧ m1.get (m.num_rows_ - 1) c = some x)
      ∧ ∃ m2, m1.set_row_to_zero (m.num_rows_ - 1) = some m2
          ∧ ∀ c, c < m.num_columns_ → m2.get (m.num_rows_ - 1) c = some 0 := by
  obtain ⟨l, hm, hlen⟩ := hready.storage
  have hrows : m.num_rows_ ≠ 0 := by omega
  have hpos : 0 < m.num_rows_ := hR
  have hoff : m.oldest_row_index_ < m.num_rows_ := by
    rcases hready.offset with h | h
    · exact absurd h hrows
    · exact h
  have hceil := hready.ceiling
  refine ⟨_, roll_right_ok m hR hoff hready.rows_typed, rfl, rfl, rfl, rfl, ?_, ?_⟩
  · intro c hc
    obtain ⟨_, x, hx⟩ := get_some m l 0 c hm hlen hrows hceil hc
    refine ⟨x, hx, ?_⟩
    rw [← hx]
    have hlim : m.num_rows_ ≤ 2147483648 := by
      have h1 : m.num_rows_ * 1 ≤ m.num_rows_ * m.num_columns_ :=
        Nat.mul_le_mul_left _ (by omega)
      unfold MAX_ELEMENTS at hceil
      omega
    refine get_congr_row m
      { m with oldest_row_index_ := (m.oldest_row_index_ + 1) % m.num_rows_ }
      0 (m.num_rows_ - 1) c rfl rfl rfl ?_
    have h1 := physical_row_no_wrap
      { m with oldest_row_index_ := (m.oldest_row_index_ + 1) % m.num_rows_ }
      (m.num_rows_ - 1) (by show m.num_rows_ - 1 < m.num_rows_; omega)
      (Nat.mod_lt _ hpos) hlim
    rw [h1, physical_row_no_wrap m 0 hpos hoff hlim]
    simp only
    rw [Nat.add_mod_mod]
    have e : m.num_rows_ - 1 + (m.oldest_row_index_ + 1)
        = 0 + m.oldest_row_index_ + m.num_rows_ := by omega
    rw [e, Nat.add_mod_right]
  · refine ⟨_, set_row_to_zero_ok
      { m with oldest_row_index_ := (m.oldest_row_index_ + 1) % m.num_rows_ } l
      (m.num_rows_ - 1) hm hlen hrows hceil, ?_⟩
    intro c hc
    exact set_row_to_zero_reads_zero
      { m with oldest_row_index_ := (m.oldest_row_index_ + 1) % m.num_rows_ } l
      (m.num_rows_ - 1) c hlen hrows hceil hc

theorem C3_roll_right_moves_no_data_witness :
    ∃ m1, scenario_matrix.roll_right = some m1
      ∧ m1.oldest_row_index_ = (0 + 1) % 3
      ∧ m1.memblock_ = some [5, 0, 0, 0, 0, 0]
      ∧ m1.num_rows_ = 3 ∧ m1.num_columns_ = 2
      ∧ (∀ c, c < 2 → ∃ x, scenario_matrix.get 0 c = some x ∧ m1.get (3 - 1) c = some x)
      ∧ ∃ m2, m1.set_row_to_zero (3 - 1) = some m2
          ∧ ∀ c, c < 2 → m2.get (3 - 1) c = some 0 :=
  C3_roll_right_moves_no_data scenario_matrix scenario_matrix_ready (by decide)

/-- C4: on a Ready matrix with at least one row and a rotation offset below the row count,
`set_row_to_zero( r )` succeeds for every row `r` below the row count, and afterwards every
column of logical row `r` reads the zero of the element type. -/
theorem C4_set_row_to_zero_then_get [Zero α] (m : DenseMatrix α) (r : Nat)
    (hready : m.Ready) (hR : 1 ≤ m.num_rows_)
    (_hoff : m.oldest_row_index_ < m.num_rows_) (_hr : r < m.num_rows_) :
    ∃ m1, m.set_row_to_zero r = some m1
      ∧ ∀ c, c < m.num_columns_ → m1.get r c = some 0 := by
  obtain ⟨l, hm, hlen⟩ := hready.storage
  have hrows : m.num_rows_ ≠ 0 := by omega
  exact ⟨_, set_row_to_zero_ok m l r hm hlen hrows hready.ceiling,
    fun c hc => set_row_to_zero_reads_zero m l r c hlen hrows hready.ceiling hc⟩

theorem C4_set_row_to_zero_then_get_witness :
    ∃ m1, sample_matrix.set_row_to_zero 1 = some m1
      ∧ ∀ c, c < sample_matrix.num_columns_ → m1.get 1 c = some 0 :=
  C4_set_row_to_zero_then_get sample_matrix 1 sample_matrix_ready (by decide) (by decide)
    (by decide)

/-- C5: on a Ready matrix with at least one row and a rotation offset below the row count,
for every row `r` below the row count and every destination buffer of at least `C` elements,
`copy_row( r, buf )` succeeds and hands back the matrix itself; the buffer keeps its length,
its element `c` is the value read at `(r, c)` for every column `c`, and its elements at
positions `C` and beyond are the old ones. -/
theorem C5_copy_row (m : DenseMatrix α) (r : Nat) (buf : List α)
    (hready : m.Ready) (hR : 1 ≤ m.num_rows_)
    (_hoff : m.oldest_row_index_ < m.num_rows_) (_hr : r < m.num_rows_)
    (hbuf : m.num_columns_ ≤ buf.length) :
    ∃ buf1, m.copy_row r buf = some (m, buf1)
      ∧ buf1.length = buf.length
      ∧ (∀ c, c < m.num_columns_ → ∃ x, m.get r c = some x ∧ buf1[c]? = some x)
      ∧ ∀ i, m.num_columns_ ≤ i → buf1[i]? = buf[i]? := by
  obtain ⟨l, hm, hlen⟩ := hready.storage
  have hrows : m.num_rows_ ≠ 0 := by omega
  have hceil := hready.ceiling
  have hfit : m.row_start r + m.num_columns_ ≤ l.length := by
    rw [hlen]
    exact row_start_fits m r hrows hceil
  refine ⟨memcpy_from buf l (m.row_start r) m.num_columns_, ?_,
    memcpy_from_length buf l _ _ hfit hbuf, ?_,
    fun i hi => memcpy_from_rest buf l _ _ i hfit hi⟩
  · unfold DenseMatrix.copy_row
    rw [hm]
    simp only [hrows, if_false, hfit, hbuf, and_self, if_true]
  · intro c hc
    obtain ⟨hg, x, hx⟩ := get_some m l r c hm hlen hrows hceil hc
    refine ⟨x, hx, ?_⟩
    rw [memcpy_from_copied buf l _ _ c hfit hc, ← hg, hx]

theorem C5_copy_row_witness :
    ∃ buf1, sample_matrix.copy_row 0 [7, 8, 9] = some (sample_matrix, buf1)
      ∧ buf1.length = [7, 8, (9 : Int)].length
      ∧ (∀ c, c < sample_matrix.num_columns_ →
          ∃ x, sample_matrix.get 0 c = some x ∧ buf1[c]? = some x)
      ∧ ∀ i, sample_matrix.num_columns_ ≤ i → buf1[i]? = [7, 8, (9 : Int)][i]? :=
  C5_copy_row sample_matrix 0 [7, 8, 9] sample_matrix_ready (by decide) (by decide)
    (by decide) (by decide)

/-! ## Construction and initialisation -/

theorem to_int_of_le {n : Nat} (h : n ≤ MAX_ELEMENTS) : to_int (u32 n) = (n : Int) := by
  unfold MAX_ELEMENTS at h
  rw [u32_of_lt (by unfold UINT_RANGE; omega)]
  unfold to_int
  rw [if_pos (by omega)]

theorem new_array_ok (h : Heap α) (n : Nat) (hgr : h.grants n = true) :
    new_array h (n : Int) = Except.ok ((List.range n).map h.junk) := by
  unfold new_array
  have h0 : ¬ ((n : Int) < 0) := by omega
  rw [if_neg h0, Int.toNat_ofNat, if_pos hgr]

theorem construct_ok [Zero α] (h : Heap α) (R C : Nat) (hprod : R * C ≤ MAX_ELEMENTS)
    (hgr : h.grants (R * C) = true) :
    DenseMatrix.construct h R C
      = Except.ok { memblock_ := some (List.replicate (R * C) 0), oldest_row_index_ := 0,
                    num_rows_ := R, num_columns_ := C } := by
  have hle : ¬ ((R * C : Nat) : Int) > (MAX_ELEMENTS : Int) := by
    have : ((R * C : Nat) : Int) ≤ (MAX_ELEMENTS : Int) := by exact_mod_cast hprod
    omega
  have hz : memset_zero ((List.range (R * C)).map h.junk) 0 (R * C)
      = List.replicate (R * C) 0 := by
    have hl : ((List.range (R * C)).map h.junk).length = R * C := by simp
    have hw := memset_zero_whole ((List.range (R * C)).map h.junk)
    rw [hl] at hw
    exact hw
  unfold DenseMatrix.construct
  simp only [to_int_of_le hprod, hle, if_false, new_array_ok h (R * C) hgr, Int.toNat_ofNat, hz]

/-- C6: when `R * C` is at most 1,000,000 and the allocator grants the block, the constructor
`DenseMatrix ( R, C )` returns a matrix whose `num_rows()` is `R`, whose `num_cols()` is `C`,
whose rotation offset is 0, whose storage block has exactly `R * C` elements, and which reads
zero at every coordinate `(r, c)` with `r < R` and `c < C`. -/
theorem C6_construction_postcondition [Zero α] (h : Heap α) (R C : Nat)
    (hprod : R * C ≤ MAX_ELEMENTS) (hgr : h.grants (R * C) = true) :
    ∃ m, DenseMatrix.construct h R C = Except.ok m
      ∧ m.num_rows = R ∧ m.num_cols = C ∧ m.oldest_row_index_ = 0
      ∧ (∃ l, m.memblock_ = some l ∧ l.length = R * C)
      ∧ ∀ r c, r < R → c < C → m.get r c = some 0 := by
  refine ⟨_, construct_ok h R C hprod hgr, rfl, rfl, rfl,
    ⟨_, rfl, List.length_replicate _ _⟩, ?_⟩
  intro r c hr hc
  have hrows : R ≠ 0 := by omega
  have hg := get_ok
    { memblock_ := some (List.replicate (R * C) (0 : α)), oldest_row_index_ := 0,
      num_rows_ := R, num_columns_ := C }
    (List.replicate (R * C) 0) r c rfl hrows
  rw [hg]
  exact List.getElem?_replicate_of_lt (elem_index_lt _ r c hrows hprod hc)

theorem C6_construction_postcondition_witness :
    ∃ m, DenseMatrix.construct generous_heap 3 2 = Except.ok m
      ∧ m.num_rows = 3 ∧ m.num_cols = 2 ∧ m.oldest_row_index_ = 0
      ∧ (∃ l, m.memblock_ = some l ∧ l.length = 3 * 2)
      ∧ ∀ r c, r < 3 → c < 2 → m.get r c = some 0 :=
  C6_construction_postcondition generous_heap 3 2 (by decide) rfl

/-- C7, evaluated at the failing input: `65536 * 65536 = 2^32` is above 1,000,000 and both
arguments are `unsigned int` values, yet the 32-bit product is 0, the limit check passes, and
both the constructor and `initialize` (on a default-constructed matrix) return normally with
an allocated block of zero elements. -/
theorem C7_ceiling_missed_on_wrap :
    MAX_ELEMENTS < 65536 * 65536 ∧ 65536 < UINT_RANGE
      ∧ DenseMatrix.construct generous_heap 65536 65536
          = Except.ok { memblock_ := some [], oldest_row_index_ := 0,
                        num_rows_ := 65536, num_columns_ := 65536 }
      ∧ DenseMatrix.initialise generous_heap DenseMatrix.construct_default 65536 65536
          = ({ memblock_ := some [], oldest_row_index_ := 0,
               num_rows_ := 65536, num_columns_ := 65536 }, none) := by
  refine ⟨by decide, by decide, ?_, ?_⟩
  · rfl
  · rfl

/-- C8, refuted as stated: `initialize( 2000, 2000 )` on a default-constructed matrix is
rejected by the limit check (it throws `std::bad_alloc`), and the matrix it leaves behind has
`num_rows() = 2000` and `num_cols() = 2000`, so it is not the state before the call. -/
theorem C8_rejected_initialise_counterexample :
    (DenseMatrix.initialise generous_heap DenseMatrix.construct_default 2000 2000).2
        = some CppException.bad_alloc
      ∧ (DenseMatrix.initialise generous_heap DenseMatrix.construct_default 2000 2000).1.num_rows
        = 2000
      ∧ (DenseMatrix.initialise generous_heap DenseMatrix.construct_default 2000 2000).1.num_cols
        = 2000
      ∧ (DenseMatrix.initialise generous_heap DenseMatrix.construct_default 2000 2000).1
        ≠ DenseMatrix.construct_default := by
  refine ⟨rfl, rfl, rfl, ?_⟩
  decide

/-- C8, amended: when `initialize( rows, columns )` is called on a default-constructed matrix
and the limit check rejects the request (the 32-bit product read as an `int` is above
1,000,000), the call throws `std::bad_alloc` and leaves the matrix without storage and with
rotation offset 0, while `num_rows()` and `num_cols()` are the rejected arguments. -/
theorem C8_rejected_initialise_state (h : Heap α) (rows columns : Nat)
    (hlimit : to_int (u32 (rows * columns)) > (MAX_ELEMENTS : Int)) :
    DenseMatrix.initialise h DenseMatrix.construct_default rows columns
      = ({ memblock_ := none, oldest_row_index_ := 0,
           num_rows_ := rows, num_columns_ := columns }, some CppException.bad_alloc) := by
  unfold DenseMatrix.initialise DenseMatrix.construct_default
  simp only [hlimit, if_true]

theorem C8_rejected_initialise_state_witness :
    DenseMatrix.initialise generous_heap DenseMatrix.construct_default 1001 1000
      = ({ memblock_ := none, oldest_row_index_ := 0,
           num_rows_ := 1001, num_columns_ := 1000 }, some CppException.bad_alloc) :=
  C8_rejected_initialise_state generous_heap 1001 1000 (by decide)

/-- C9, evaluated at the failing input: `initialize( 5, 7 )` on the Ready 3 x 2 matrix returns
normally and keeps the block of 6 elements and the rotation offset, but `num_rows()` is 5 and
`num_cols()` is 7 afterwards; and `initialize( 2000, 2000 )` on the same matrix throws
`std::bad_alloc`, again with the dimensions overwritten. -/
theorem C9_reinitialise_overwrites_dimensions :
    scenario_matrix.Ready
      ∧ DenseMatrix.initialise generous_heap scenario_matrix 5 7
          = ({ memblock_ := some [5, 0, 0, 0, 0, 0], oldest_row_index_ := 0,
               num_rows_ := 5, num_columns_ := 7 }, none)
      ∧ DenseMatrix.initialise generous_heap scenario_matrix 2000 2000
          = ({ memblock_ := some [5, 0, 0, 0, 0, 0], oldest_row_index_ := 0,
               num_rows_ := 2000, num_columns_ := 2000 }, some CppException.bad_alloc) := by
  refine ⟨⟨⟨[5, 0, 0, 0, 0, 0], rfl, rfl⟩, by decide, Or.inr (by decide), by decide⟩, ?_, ?_⟩
  · rfl
  · rfl

/-- C10, evaluated at the failing input: with an allocator whose fresh storage holds 7,
`initialize( 1, 1 )` on a default-constructed matrix returns normally and the matrix reads 7
at `(0, 0)`, whereas the matrix built by the constructor `DenseMatrix ( 1, 1 )` on the same
allocator reads 0 there: `initialize` has no `memset`. -/
theorem C10_initialise_does_not_zero_fill :
    DenseMatrix.initialise generous_heap DenseMatrix.construct_default 1 1
        = ({ memblock_ := some [7], oldest_row_index_ := 0,
             num_rows_ := 1, num_columns_ := 1 }, none)
      ∧ DenseMatrix.get
          (DenseMatrix.initialise generous_heap DenseMatrix.construct_default 1 1).1 0 0
        = some 7
      ∧ DenseMatrix.construct generous_heap 1 1
        = Except.ok { memblock_ := some [0], oldest_row_index_ := 0,
                      num_rows_ := 1, num_columns_ := 1 } := by
  refine ⟨rfl, rfl, rfl⟩

/-! ## Invariants along sequences of calls -/

theorem memset_zero_outside [Zero α] (l : List α) (s n i : Nat) (h : s + n ≤ l.length)
    (hi : i < s ∨ s + n ≤ i) : (memset_zero l s n)[i]? = l[i]? := by
  unfold memset_zero
  have h1 : (List.take s l).length = s := by
    rw [List.length_take]; omega
  rw [List.append_assoc]
  rcases hi with hi | hi
  · rw [List.getElem?_append_left (by omega), List.getElem?_take_of_lt hi]
  · rw [List.getElem?_append_right (by omega), h1]
    rw [List.getElem?_append_right (by rw [List.length_replicate]; omega)]
    rw [List.length_replicate, List.getElem?_drop]
    congr 1
    omega

theorem step_keeps_shape [Zero α] (h : Heap α) (m : DenseMatrix α) (R C : Nat) (op : Op α)
    (hs : m.Shaped R C) (hv : op.valid R C = true) :
    ∃ m1, step h m op = some m1 ∧ m1.Shaped R C := by
  obtain ⟨hrw, hcl, ⟨l, hm, hlen⟩, hceil, hoff⟩ := hs
  subst hrw
  subst hcl
  have hrows : m.num_rows_ ≠ 0 := by omega
  cases op with
  | write r c v =>
    simp only [Op.valid, Bool.and_eq_true, decide_eq_true_eq] at hv
    have hi : m.elem_index r c < l.length := by
      rw [hlen]
      exact elem_index_lt m r c hrows hceil hv.2
    refine ⟨_, put_ok m l r c v hm hrows hi, rfl, rfl, ⟨_, rfl, ?_⟩, hceil, hoff⟩
    rw [List.length_set]
    exact hlen
  | copy_row r buf =>
    simp only [Op.valid, Bool.and_eq_true, decide_eq_true_eq] at hv
    have hfit : m.row_start r + m.num_columns_ ≤ l.length := by
      rw [hlen]
      exact row_start_fits m r hrows hceil
    refine ⟨m, ?_, rfl, rfl, ⟨l, hm, hlen⟩, hceil, hoff⟩
    unfold step DenseMatrix.copy_row
    rw [hm]
    simp only [hrows, if_false, hfit, hv.2, and_self, if_true, Option.map_some']
  | roll_right =>
    refine ⟨{ m with oldest_row_index_ := u32 (m.oldest_row_index_ + 1) % m.num_rows_ },
      ?_, rfl, rfl, ⟨l, hm, hlen⟩, hceil, Nat.mod_lt _ (Nat.pos_of_ne_zero hrows)⟩
    unfold step DenseMatrix.roll_right
    simp only [hrows, if_false]
  | set_row_to_zero r =>
    have hfit : m.row_start r + m.num_columns_ ≤ l.length := by
      rw [hlen]
      exact row_start_fits m r hrows hceil
    refine ⟨_, set_row_to_zero_ok m l r hm hlen hrows hceil, rfl, rfl, ⟨_, rfl, ?_⟩,
      hceil, hoff⟩
    rw [memset_zero_length l _ _ hfit]
    exact hlen
  | initialise rows columns =>
    simp [Op.valid] at hv

theorem run_keeps_shape [Zero α] (h : Heap α) (ops : List (Op α)) (m : DenseMatrix α)
    (R C : Nat) (hs : m.Shaped R C) (hv : ops.all (Op.valid R C) = true) :
    ∃ m1, run h ops m = some m1 ∧ m1.Shaped R C := by
  induction ops generalizing m with
  | nil => exact ⟨m, rfl, hs⟩
  | cons op ops ih =>
    rw [List.all_cons, Bool.and_eq_true] at hv
    obtain ⟨m1, h1, hs1⟩ := step_keeps_shape h m R C op hs hv.1
    obtain ⟨m2, h2, hs2⟩ := ih m1 hs1 hv.2
    refine ⟨m2, ?_, hs2⟩
    unfold run
    rw [h1]
    exact h2

theorem construct_shaped [Zero α] (h : Heap α) (R C : Nat) (hR : 1 ≤ R)
    (hprod : R * C ≤ MAX_ELEMENTS) (hgr : h.grants (R * C) = true) :
    ∃ m0, DenseMatrix.construct h R C = Except.ok m0 ∧ m0.Shaped R C :=
  ⟨_, construct_ok h R C hprod hgr, rfl, rfl, ⟨_, rfl, List.length_replicate _ _⟩, hprod, hR⟩

theorem initialise_ok (h : Heap α) (R C : Nat) (hprod : R * C ≤ MAX_ELEMENTS)
    (hgr : h.grants (R * C) = true) :
    DenseMatrix.initialise h DenseMatrix.construct_default R C
      = ({ memblock_ := some ((List.range (R * C)).map h.junk), oldest_row_index_ := 0,
           num_rows_ := R, num_columns_ := C }, none) := by
  have hle : ¬ ((R * C : Nat) : Int) > (MAX_ELEMENTS : Int) := by
    have : ((R * C : Nat) : Int) ≤ (MAX_ELEMENTS : Int) := by exact_mod_cast hprod
    omega
  unfold DenseMatrix.initialise DenseMatrix.construct_default
  simp only [to_int_of_le hprod, hle, if_false, new_array_ok h (R * C) hgr]

theorem initialise_shaped (h : Heap α) (R C : Nat) (hR : 1 ≤ R)
    (hprod : R * C ≤ MAX_ELEMENTS) (hgr : h.grants (R * C) = true) :
    ∃ m0, DenseMatrix.initialise h DenseMatrix.construct_default R C = (m0, none)
      ∧ m0.Shaped R C :=
  ⟨_, initialise_ok h R C hprod hgr, rfl, rfl, ⟨_, rfl, by simp⟩, hprod, hR⟩

theorem shaped_invariant (m : DenseMatrix α) (R C : Nat) (hs : m.Shaped R C) :
    m.oldest_row_index_ < m.num_rows
      ∧ ∃ l, m.memblock_ = some l ∧ l.length = m.num_rows * m.num_cols := by
  obtain ⟨hrw, hcl, hst, _, hoff⟩ := hs
  unfold DenseMatrix.num_rows DenseMatrix.num_cols
  rw [hrw, hcl]
  exact ⟨hoff, hst⟩

/-- C11, refuted as stated, at three reachable states. The constructor accepts
`( 0, 5 )`, and the matrix it builds has rotation offset 0, which is not below its row count
0. After `DenseMatrix ( 3, 2 )`, a call `initialize( 5, 7 )` leaves a block of 6 elements
under dimensions 5 x 7. The constructor accepts `( 65536, 65536 )` and allocates a block of
0 elements under dimensions whose product is `2^32`. -/
theorem C11_invariant_counterexample :
    (∃ m0, DenseMatrix.construct generous_heap 0 5 = Except.ok m0
        ∧ run generous_heap [] m0 = some m0
        ∧ ¬ m0.oldest_row_index_ < m0.num_rows)
      ∧ (∃ m0 m l, DenseMatrix.construct generous_heap 3 2 = Except.ok m0
        ∧ run generous_heap [Op.initialise 5 7] m0 = some m
        ∧ m.memblock_ = some l ∧ l.length = 6 ∧ m.num_rows * m.num_cols = 35)
      ∧ (∃ m0 l, DenseMatrix.construct generous_heap 65536 65536 = Except.ok m0
        ∧ m0.memblock_ = some l ∧ l.length = 0
        ∧ m0.num_rows * m0.num_cols = 4294967296) := by
  refine ⟨⟨_, rfl, rfl, ?_⟩, ⟨_, _, _, rfl, rfl, rfl, rfl, rfl⟩, ⟨_, _, rfl, rfl, rfl, rfl⟩⟩
  decide

/-- C11, amended: when `R` is at least 1, `R * C` is at most 1,000,000 and the allocator
grants the block, both the constructor `DenseMatrix ( R, C )` and `initialize( R, C )` on a
default-constructed matrix succeed, and every sequence of element writes at valid coordinates,
`copy_row`, `roll_right` and `set_row_to_zero` calls that follows runs to a state whose
rotation offset is below `num_rows()` and whose storage block has length
`num_rows() * num_cols()`. -/
theorem C11_offset_and_length_invariant [Zero α] (h : Heap α) (R C : Nat)
    (ops : List (Op α)) (hR : 1 ≤ R) (hprod : R * C ≤ MAX_ELEMENTS)
    (hgr : h.grants (R * C) = true) (hv : ops.all (Op.valid R C) = true) :
    (∃ m0 m, DenseMatrix.construct h R C = Except.ok m0 ∧ run h ops m0 = some m
        ∧ m.oldest_row_index_ < m.num_rows
        ∧ ∃ l, m.memblock_ = some l ∧ l.length = m.num_rows * m.num_cols)
      ∧ ∃ m0 m, DenseMatrix.initialise h DenseMatrix.construct_default R C = (m0, none)
        ∧ run h ops m0 = some m
        ∧ m.oldest_row_index_ < m.num_rows
        ∧ ∃ l, m.memblock_ = some l ∧ l.length = m.num_rows * m.num_cols := by
  obtain ⟨a0, ha0, hsa⟩ := construct_shaped h R C hR hprod hgr
  obtain ⟨a, ha, hsa1⟩ := run_keeps_shape h ops a0 R C hsa hv
  obtain ⟨b0, hb0, hsb⟩ := initialise_shaped h R C hR hprod hgr
  obtain ⟨b, hb, hsb1⟩ := run_keeps_shape h ops b0 R C hsb hv
  exact ⟨⟨a0, a, ha0, ha, shaped_invariant a R C hsa1⟩,
    ⟨b0, b, hb0, hb, shaped_invariant b R C hsb1⟩⟩

theorem C11_offset_and_length_invariant_witness :
    (∃ m0 m, DenseMatrix.construct generous_heap 3 2 = Except.ok m0
        ∧ run generous_heap sample_calls m0 = some m
        ∧ m.oldest_row_index_ < m.num_rows
        ∧ ∃ l, m.memblock_ = some l ∧ l.length = m.num_rows * m.num_cols)
      ∧ ∃ m0 m, DenseMatrix.initialise generous_heap DenseMatrix.construct_default 3 2
          = (m0, none)
        ∧ run generous_heap sample_calls m0 = some m
        ∧ m.oldest_row_index_ < m.num_rows
        ∧ ∃ l, m.memblock_ = some l ∧ l.length = m.num_rows * m.num_cols :=
  C11_offset_and_length_invariant generous_heap 3 2 sample_calls (by decide) (by decide)
    rfl rfl

/-! ## Errors and lifecycle -/

theorem construct_limit [Zero α] (h : Heap α) (R C : Nat)
    (hlimit : to_int (u32 (R * C)) > (MAX_ELEMENTS : Int)) :
    DenseMatrix.construct h R C = Except.error CppException.bad_alloc := by
  unfold DenseMatrix.construct
  simp only [hlimit, if_true]

theorem initialise_limit (h : Heap α) (m : DenseMatrix α) (R C : Nat)
    (hlimit : to_int (u32 (R * C)) > (MAX_ELEMENTS : Int)) :
    m.initialise h R C
      = ({ m with num_rows_ := R, num_columns_ := C }, some CppException.bad_alloc) := by
  unfold DenseMatrix.initialise
  simp only [hlimit, if_true]

theorem new_array_denied (h : Heap α) (n : Nat) (hdeny : h.grants n = false) :
    new_array h (n : Int) = Except.error CppException.bad_alloc := by
  unfold new_array
  have h0 : ¬ ((n : Int) < 0) := by omega
  rw [if_neg h0, Int.toNat_ofNat, hdeny]
  rfl

/-- C12, refuted as stated: the constructor rejecting `( 2000, 2000 )` at the ceiling check
(on an allocator that would grant anything) and the constructor being denied the single
element of `( 1, 1 )` by the allocator end in the same error, `std::bad_alloc`; likewise
for `initialize`. -/
theorem C12_same_error_counterexample :
    (DenseMatrix.construct generous_heap 2000 2000 : Except CppException (DenseMatrix Int))
        = Except.error CppException.bad_alloc
      ∧ (DenseMatrix.construct stingy_heap 1 1 : Except CppException (DenseMatrix Int))
        = Except.error CppException.bad_alloc
      ∧ (DenseMatrix.initialise generous_heap DenseMatrix.construct_default 2000 2000).2
        = some CppException.bad_alloc
      ∧ (DenseMatrix.initialise stingy_heap DenseMatrix.construct_default 1 1).2
        = some CppException.bad_alloc :=
  ⟨rfl, rfl, rfl, rfl⟩

/-- C12, amended: a request rejected by the ceiling check (the 32-bit element count read as
an `int` is above 1,000,000) and a request within the ceiling that the allocator denies are
reported by the same error, `std::bad_alloc`, by the constructor and by `initialize`; the
error alone does not tell which of the two happened. -/
theorem C12_limit_and_denial_same_error [Zero α] (h h1 : Heap α) (R C R1 C1 : Nat)
    (hlimit : to_int (u32 (R * C)) > (MAX_ELEMENTS : Int))
    (hin : R1 * C1 ≤ MAX_ELEMENTS) (hdeny : h1.grants (R1 * C1) = false) :
    DenseMatrix.construct h R C = Except.error CppException.bad_alloc
      ∧ DenseMatrix.construct h1 R1 C1 = Except.error CppException.bad_alloc
      ∧ (DenseMatrix.initialise h DenseMatrix.construct_default R C).2
          = some CppException.bad_alloc
      ∧ (DenseMatrix.initialise h1 DenseMatrix.construct_default R1 C1).2
          = some CppException.bad_alloc := by
  have hle : ¬ ((R1 * C1 : Nat) : Int) > (MAX_ELEMENTS : Int) := by
    have : ((R1 * C1 : Nat) : Int) ≤ (MAX_ELEMENTS : Int) := by exact_mod_cast hin
    omega
  refine ⟨construct_limit h R C hlimit, ?_, ?_, ?_⟩
  · unfold DenseMatrix.construct
    simp only [to_int_of_le hin, hle, if_false, new_array_denied h1 (R1 * C1) hdeny]
  · rw [initialise_limit h _ R C hlimit]
  · unfold DenseMatrix.initialise DenseMatrix.construct_default
    simp only [to_int_of_le hin, hle, if_false, new_array_denied h1 (R1 * C1) hdeny]

theorem C12_limit_and_denial_same_error_witness :
    DenseMatrix.construct generous_heap 1001 1000 = Except.error CppException.bad_alloc
      ∧ DenseMatrix.construct stingy_heap 3 2 = Except.error CppException.bad_alloc
      ∧ (DenseMatrix.initialise generous_heap DenseMatrix.construct_default 1001 1000).2
          = some CppException.bad_alloc
      ∧ (DenseMatrix.initialise stingy_heap DenseMatrix.construct_default 3 2).2
          = some CppException.bad_alloc :=
  C12_limit_and_denial_same_error generous_heap stingy_heap 1001 1000 3 2 (by decide)
    (by decide) rfl

theorem step_keeps_storage [Zero α] (h : Heap α) (m m1 : DenseMatrix α) (op : Op α)
    (hm : m.memblock_.isSome = true) (hstep : step h m op = some m1) :
    m1.memblock_.isSome = true := by
  obtain ⟨l, hl⟩ := Option.isSome_iff_exists.mp hm
  cases op with
  | write r c v =>
    simp only [step, DenseMatrix.put, hl] at hstep
    split_ifs at hstep
    simp only [Option.some.injEq] at hstep
    rw [← hstep]
    rfl
  | copy_row r buf =>
    simp only [step, DenseMatrix.copy_row, hl] at hstep
    split_ifs at hstep <;> simp at hstep
    rw [← hstep]
    exact hm
  | roll_right =>
    simp only [step, DenseMatrix.roll_right] at hstep
    split_ifs at hstep
    simp only [Option.some.injEq] at hstep
    rw [← hstep]
    exact hm
  | set_row_to_zero r =>
    simp only [step, DenseMatrix.set_row_to_zero, hl] at hstep
    split_ifs at hstep
    simp only [Option.some.injEq] at hstep
    rw [← hstep]
    rfl
  | initialise rows columns =>
    simp only [step, DenseMatrix.initialise, hl, Option.some.injEq] at hstep
    rw [← hstep]
    split_ifs
    · rfl
    · rfl

theorem run_keeps_storage [Zero α] (h : Heap α) (ops : List (Op α)) (m m1 : DenseMatrix α)
    (hm : m.memblock_.isSome = true) (hrun : run h ops m = some m1) :
    m1.memblock_.isSome = true := by
  induction ops generalizing m with
  | nil =>
    simp only [run, Option.some.injEq] at hrun
    rw [← hrun]
    exact hm
  | cons op ops ih =>
    unfold run at hrun
    cases hs : step h m op with
    | none =>
      rw [hs] at hrun
      exact absurd hrun (by simp)
    | some m2 =>
      rw [hs] at hrun
      exact ih m2 (step_keeps_storage h m m2 op hm hs) hrun

/-- C13: a default-constructed matrix has no storage and `num_rows() = num_cols() = 0`; an
`initialize( R, C )` on it that returns without throwing leaves a matrix with storage; and
from a matrix with storage, no sequence of calls of `initialize`, element writes, `copy_row`,
`roll_right` and `set_row_to_zero` reaches a matrix without storage. -/
theorem C13_two_state_lifecycle [Zero α] (h : Heap α) (R C : Nat) (m m1 : DenseMatrix α)
    (ops : List (Op α)) :
    ((DenseMatrix.construct_default : DenseMatrix α).memblock_ = none
        ∧ (DenseMatrix.construct_default : DenseMatrix α).num_rows = 0
        ∧ (DenseMatrix.construct_default : DenseMatrix α).num_cols = 0)
      ∧ ((DenseMatrix.initialise h DenseMatrix.construct_default R C).2 = none →
          (DenseMatrix.initialise h DenseMatrix.construct_default R C).1.memblock_.isSome
            = true)
      ∧ (m.memblock_.isSome = true → run h ops m = some m1 →
          m1.memblock_.isSome = true) := by
  refine ⟨⟨rfl, rfl, rfl⟩, ?_, fun hm hrun => run_keeps_storage h ops m m1 hm hrun⟩
  unfold DenseMatrix.initialise DenseMatrix.construct_default
  simp only
  split_ifs with hlimit
  · intro hthrow
    exact absurd hthrow (by simp)
  · cases hnew : new_array h (to_int (u32 (R * C))) with
    | error e =>
      intro hthrow
      exact absurd hthrow (by simp)
    | ok blk =>
      intro _
      rfl

theorem C13_two_state_lifecycle_witness :
    (DenseMatrix.initialise generous_heap DenseMatrix.construct_default 3 2).1.memblock_.isSome
        = true
      ∧ run generous_heap sample_calls scenario_matrix = some scenario_after_calls
      ∧ scenario_after_calls.memblock_.isSome = true :=
  ⟨(C13_two_state_lifecycle generous_heap 3 2 scenario_matrix scenario_after_calls
      sample_calls).2.1 rfl,
   rfl,
   (C13_two_state_lifecycle generous_heap 3 2 scenario_matrix scenario_after_calls
      sample_calls).2.2 rfl rfl⟩

/-! ## Index safety -/

theorem elem_index_no_wrap (m : DenseMatrix α) (R C r c : Nat) (hs : m.Shaped R C)
    (hr : r < R) (hc : c < C) :
    r + m.oldest_row_index_ < UINT_RANGE
      ∧ (r + m.oldest_row_index_) % R * C + c < UINT_RANGE
      ∧ m.elem_index r c = (r + m.oldest_row_index_) % R * C + c
      ∧ m.elem_index r c < R * C := by
  obtain ⟨hrw, hcl, _, hceil, hoff⟩ := hs
  subst hrw
  subst hcl
  have hrows : m.num_rows_ ≠ 0 := by omega
  have hsmall : m.num_rows_ ≤ 1000000 := by
    have h1 : m.num_rows_ * 1 ≤ m.num_rows_ * m.num_columns_ :=
      Nat.mul_le_mul_left _ (by omega)
    unfold MAX_ELEMENTS at hceil
    omega
  have hp := physical_row_no_wrap m r hr hoff (by omega)
  have he := elem_index_eq m r c hrows hceil hc
  have hlt := elem_index_lt m r c hrows hceil hc
  rw [row_start_eq m r hrows hceil, hp] at he
  refine ⟨by unfold UINT_RANGE; omega, ?_, he, hlt⟩
  rw [← he]
  unfold MAX_ELEMENTS at hceil
  unfold UINT_RANGE
  omega

/-- C14: for `R` and `C` at least 1 with `R * C` at most 1,000,000 and a granted allocation,
the constructor `DenseMatrix ( R, C )` succeeds, and every sequence of `roll_right`,
`set_row_to_zero`, element writes at valid coordinates (and `copy_row`) runs to a matrix with
`R` rows (so `% num_rows_` does not divide by zero) and a block of `R * C` elements, on which,
for every `r < R` and `c < C`, the sum `r + offset` and the subscript stay below `2^32`, the
subscript computed is `((r + offset) mod R) * C + c`, it is below `R * C`, the read returns a
value and a write succeeds. -/
theorem C14_index_safety [Zero α] (h : Heap α) (R C : Nat) (ops : List (Op α))
    (hR : 1 ≤ R) (_hC : 1 ≤ C) (hprod : R * C ≤ MAX_ELEMENTS)
    (hgr : h.grants (R * C) = true) (hv : ops.all (Op.valid R C) = true) :
    ∃ m0 m l, DenseMatrix.construct h R C = Except.ok m0 ∧ run h ops m0 = some m
      ∧ m.num_rows_ = R ∧ m.num_rows_ ≠ 0
      ∧ m.memblock_ = some l ∧ l.length = R * C
      ∧ ∀ r c, r < R → c < C →
          r + m.oldest_row_index_ < UINT_RANGE
          ∧ (r + m.oldest_row_index_) % R * C + c < UINT_RANGE
          ∧ m.elem_index r c = (r + m.oldest_row_index_) % R * C + c
          ∧ m.elem_index r c < R * C
          ∧ (∃ x, m.get r c = some x)
          ∧ ∀ v, ∃ m2, m.put r c v = some m2 := by
  obtain ⟨m0, hm0, hs0⟩ := construct_shaped h R C hR hprod hgr
  obtain ⟨m, hrun, hs⟩ := run_keeps_shape h ops m0 R C hs0 hv
  obtain ⟨l, hm, hlen⟩ := hs.storage
  have hrw := hs.rows
  have hrows : m.num_rows_ ≠ 0 := by omega
  refine ⟨m0, m, l, hm0, hrun, hrw, hrows, hm, hlen, ?_⟩
  intro r c hr hc
  obtain ⟨h1, h2, h3, h4⟩ := elem_index_no_wrap m R C r c hs hr hc
  have hi : m.elem_index r c < l.length := by
    rw [hlen]
    exact h4
  refine ⟨h1, h2, h3, h4, ⟨l[m.elem_index r c], ?_⟩, fun v => ⟨_, put_ok m l r c v hm hrows hi⟩⟩
  rw [get_ok m l r c hm hrows]
  exact List.getElem?_eq_getElem hi

theorem C14_index_safety_witness :
    ∃ m0 m l, DenseMatrix.construct generous_heap 3 2 = Except.ok m0
      ∧ run generous_heap sample_calls m0 = some m
      ∧ m.num_rows_ = 3 ∧ m.num_rows_ ≠ 0
      ∧ m.memblock_ = some l ∧ l.length = 3 * 2
      ∧ ∀ r c, r < 3 → c < 2 →
          r + m.oldest_row_index_ < UINT_RANGE
          ∧ (r + m.oldest_row_index_) % 3 * 2 + c < UINT_RANGE
          ∧ m.elem_index r c = (r + m.oldest_row_index_) % 3 * 2 + c
          ∧ m.elem_index r c < 3 * 2
          ∧ (∃ x, m.get r c = some x)
          ∧ ∀ v, ∃ m2, m.put r c v = some m2 :=
  C14_index_safety generous_heap 3 2 sample_calls (by decide) (by decide) (by decide) rfl rfl

/-! ## Frame properties -/

theorem ready_shaped (m : DenseMatrix α) (hready : m.Ready)
    (hoff : m.oldest_row_index_ < m.num_rows_) : m.Shaped m.num_rows_ m.num_columns_ :=
  ⟨rfl, rfl, hready.storage, hready.ceiling, hoff⟩

/-- Distinct logical rows below the row count resolve to distinct physical rows. -/
theorem rotated_row_injective {R off r r1 : Nat} (hr : r < R) (hr1 : r1 < R)
    (h : (r + off) % R = (r1 + off) % R) : r = r1 := by
  have h1 : r ≡ r1 [MOD R] := Nat.ModEq.add_right_cancel' off h
  unfold Nat.ModEq at h1
  rw [Nat.mod_eq_of_lt hr, Nat.mod_eq_of_lt hr1] at h1
  exact h1

/-- Rows of `C` elements that start at multiples of `C` do not overlap. -/
theorem rows_apart {p p1 C : Nat} (h : p < p1) : p * C + C ≤ p1 * C :=
  row_fits h

theorem offset_injective {p p1 C c c1 : Nat} (hc : c < C) (hc1 : c1 < C)
    (h : p * C + c = p1 * C + c1) : p = p1 ∧ c = c1 := by
  rcases Nat.lt_trichotomy p p1 with hlt | heq | hgt
  · have := rows_apart (C := C) hlt
    omega
  · subst heq
    exact ⟨rfl, by omega⟩
  · have := rows_apart (C := C) hgt
    omega

/-- C15: on a Ready matrix with at least one row and one column and a rotation offset below
the row count, two valid coordinates with the same subscript are the same coordinate; a write
at valid `(r, c)` succeeds, keeps the dimensions and the rotation offset, and leaves the read
at every other valid coordinate `(r1, c1)` as it was. -/
theorem C15_writes_do_not_alias (m : DenseMatrix α) (r c r1 c1 : Nat) (v : α)
    (hready : m.Ready) (hR : 1 ≤ m.num_rows_) (_hC : 1 ≤ m.num_columns_)
    (hoff : m.oldest_row_index_ < m.num_rows_)
    (hr : r < m.num_rows_) (hc : c < m.num_columns_)
    (hr1 : r1 < m.num_rows_) (hc1 : c1 < m.num_columns_) :
    (m.elem_index r c = m.elem_index r1 c1 → r = r1 ∧ c = c1)
      ∧ ∃ m1, m.put r c v = some m1
        ∧ m1.num_rows_ = m.num_rows_ ∧ m1.num_columns_ = m.num_columns_
        ∧ m1.oldest_row_index_ = m.oldest_row_index_
        ∧ (¬ (r1 = r ∧ c1 = c) → m1.get r1 c1 = m.get r1 c1) := by
  have hs := ready_shaped m hready hoff
  obtain ⟨l, hm, hlen⟩ := hready.storage
  have hrows : m.num_rows_ ≠ 0 := by omega
  obtain ⟨_, _, he, hlt⟩ := elem_index_no_wrap m _ _ r c hs hr hc
  obtain ⟨_, _, he1, _⟩ := elem_index_no_wrap m _ _ r1 c1 hs hr1 hc1
  have hinj : m.elem_index r c = m.elem_index r1 c1 → r = r1 ∧ c = c1 := by
    intro h
    rw [he, he1] at h
    obtain ⟨hp, hcc⟩ := offset_injective hc hc1 h
    exact ⟨rotated_row_injective hr hr1 hp, hcc⟩
  have hi : m.elem_index r c < l.length := by
    rw [hlen]
    exact hlt
  refine ⟨hinj, _, put_ok m l r c v hm hrows hi, rfl, rfl, rfl, ?_⟩
  intro hne
  have hg := get_ok { m with memblock_ := some (l.set (m.elem_index r c) v) }
    (l.set (m.elem_index r c) v) r1 c1 rfl hrows
  rw [hg, get_ok m l r1 c1 hm hrows]
  show (l.set (m.elem_index r c) v)[m.elem_index r1 c1]? = l[m.elem_index r1 c1]?
  apply List.getElem?_set_ne
  intro h
  obtain ⟨h1, h2⟩ := hinj h
  exact hne ⟨h1.symm, h2.symm⟩

theorem C15_writes_do_not_alias_witness :
    (sample_matrix.elem_index 2 1 = sample_matrix.elem_index 0 1 → 2 = 0 ∧ 1 = 1)
      ∧ ∃ m1, sample_matrix.put 2 1 7 = some m1
        ∧ m1.num_rows_ = sample_matrix.num_rows_
        ∧ m1.num_columns_ = sample_matrix.num_columns_
        ∧ m1.oldest_row_index_ = sample_matrix.oldest_row_index_
        ∧ (¬ (0 = 2 ∧ 1 = 1) → m1.get 0 1 = sample_matrix.get 0 1) :=
  C15_writes_do_not_alias sample_matrix 2 1 0 1 7 sample_matrix_ready (by decide) (by decide)
    (by decide) (by decide) (by decide) (by decide) (by decide)

/-- C16: on a Ready matrix with at least one row and a rotation offset below the row count,
`set_row_to_zero( r )` for a row `r` below the row count succeeds, keeps the dimensions and
the rotation offset, and leaves the read at `(r1, c)` as it was for every other row `r1`
below the row count and every column `c`. -/
theorem C16_set_row_to_zero_one_row [Zero α] (m : DenseMatrix α) (r r1 c : Nat)
    (hready : m.Ready) (hR : 1 ≤ m.num_rows_)
    (hoff : m.oldest_row_index_ < m.num_rows_)
    (hr : r < m.num_rows_) (hr1 : r1 < m.num_rows_) (hne : r1 ≠ r)
    (hc : c < m.num_columns_) :
    ∃ m1, m.set_row_to_zero r = some m1
      ∧ m1.num_rows_ = m.num_rows_ ∧ m1.num_columns_ = m.num_columns_
      ∧ m1.oldest_row_index_ = m.oldest_row_index_
      ∧ m1.get r1 c = m.get r1 c := by
  have hs := ready_shaped m hready hoff
  obtain ⟨l, hm, hlen⟩ := hready.storage
  have hceil := hready.ceiling
  have hrows : m.num_rows_ ≠ 0 := by omega
  obtain ⟨_, _, he, _⟩ := elem_index_no_wrap m _ _ r c hs hr hc
  obtain ⟨_, _, he1, _⟩ := elem_index_no_wrap m _ _ r1 c hs hr1 hc
  have hstart : m.row_start r
      = (r + m.oldest_row_index_) % m.num_rows_ * m.num_columns_ := by
    have := elem_index_eq m r c hrows hceil hc
    omega
  have hfit : m.row_start r + m.num_columns_ ≤ l.length := by
    rw [hlen]
    exact row_start_fits m r hrows hceil
  refine ⟨_, set_row_to_zero_ok m l r hm hlen hrows hceil, rfl, rfl, rfl, ?_⟩
  have hg := get_ok
    { m with memblock_ := some (memset_zero l (m.row_start r) m.num_columns_) }
    (memset_zero l (m.row_start r) m.num_columns_) r1 c rfl hrows
  rw [hg, get_ok m l r1 c hm hrows]
  show (memset_zero l (m.row_start r) m.num_columns_)[m.elem_index r1 c]?
    = l[m.elem_index r1 c]?
  apply memset_zero_outside l _ _ _ hfit
  rw [he1, hstart]
  have hrow : (r1 + m.oldest_row_index_) % m.num_rows_
      ≠ (r + m.oldest_row_index_) % m.num_rows_ :=
    fun h => hne (rotated_row_injective hr1 hr h)
  rcases Nat.lt_or_gt_of_ne hrow with hlt | hgt
  · have := rows_apart (C := m.num_columns_) hlt
    left
    omega
  · have := rows_apart (C := m.num_columns_) hgt
    right
    omega

theorem C16_set_row_to_zero_one_row_witness :
    ∃ m1, sample_matrix.set_row_to_zero 1 = some m1
      ∧ m1.num_rows_ = sample_matrix.num_rows_
      ∧ m1.num_columns_ = sample_matrix.num_columns_
      ∧ m1.oldest_row_index_ = sample_matrix.oldest_row_index_
      ∧ m1.get 2 1 = sample_matrix.get 2 1 :=
  C16_set_row_to_zero_one_row sample_matrix 1 2 1 sample_matrix_ready (by decide) (by decide)
    (by decide) (by decide) (by decide) (by decide)

/-! ## The limit check in 32-bit arithmetic -/

theorem to_int_u32_eq (R C : Nat) : to_int (u32 (R * C)) = wrapped_signed_product R C := by
  unfold to_int u32 UINT_RANGE wrapped_signed_product Int.bmod
  simp only []
  split_ifs <;> omega

theorem num_elements_cases (R C : Nat) :
    to_int (u32 (R * C)) < 0 ∨ ∃ n : Nat, to_int (u32 (R * C)) = (n : Int) := by
  by_cases h : to_int (u32 (R * C)) < 0
  · exact Or.inl h
  · exact Or.inr ⟨(to_int (u32 (R * C))).toNat, (Int.toNat_of_nonneg (by omega)).symm⟩

theorem new_array_not_bad_alloc (h : Heap α) (n : Int) (hgr : h.grants n.toNat = true) :
    new_array h n = Except.error CppException.bad_array_new_length
      ∨ ∃ blk, new_array h n = Except.ok blk := by
  unfold new_array
  by_cases hneg : n < 0
  · left
    rw [if_pos hneg]
  · right
    rw [if_neg hneg, if_pos hgr]
    exact ⟨_, rfl⟩

theorem construct_throw_iff [Zero α] (h : Heap α) (R C : Nat)
    (hgr : h.grants (to_int (u32 (R * C))).toNat = true) :
    DenseMatrix.construct h R C = Except.error CppException.bad_alloc
      ↔ to_int (u32 (R * C)) > (MAX_ELEMENTS : Int) := by
  constructor
  · intro hthrow
    by_contra hlimit
    unfold DenseMatrix.construct at hthrow
    simp only [hlimit, if_false] at hthrow
    rcases new_array_not_bad_alloc h _ hgr with hn | ⟨blk, hn⟩
    · rw [hn] at hthrow
      simp at hthrow
    · rw [hn] at hthrow
      simp at hthrow
  · exact construct_limit h R C

theorem initialise_throw_iff (h : Heap α) (m : DenseMatrix α) (R C : Nat)
    (hgr : h.grants (to_int (u32 (R * C))).toNat = true) :
    (m.initialise h R C).2 = some CppException.bad_alloc
      ↔ to_int (u32 (R * C)) > (MAX_ELEMENTS : Int) := by
  constructor
  · intro hthrow
    by_contra hlimit
    unfold DenseMatrix.initialise at hthrow
    simp only [hlimit, if_false] at hthrow
    cases hblk : m.memblock_ with
    | some l =>
      rw [hblk] at hthrow
      simp at hthrow
    | none =>
      rw [hblk] at hthrow
      rcases new_array_not_bad_alloc h _ hgr with hn | ⟨blk, hn⟩
      · rw [hn] at hthrow
        simp at hthrow
      · rw [hn] at hthrow
        simp at hthrow
  · intro hlimit
    rw [initialise_limit h m R C hlimit]

theorem initialise_returns (h : Heap α) (m : DenseMatrix α) (R C : Nat)
    (hprod : R * C ≤ MAX_ELEMENTS) (hgr : h.grants (R * C) = true) :
    (m.initialise h R C).2 = none := by
  have hle : ¬ ((R * C : Nat) : Int) > (MAX_ELEMENTS : Int) := by
    have : ((R * C : Nat) : Int) ≤ (MAX_ELEMENTS : Int) := by exact_mod_cast hprod
    omega
  unfold DenseMatrix.initialise
  simp only [to_int_of_le hprod, hle, if_false, new_array_ok h (R * C) hgr]
  cases m.memblock_ <;> rfl

/-- C17: with an allocator that does not deny the request, the constructor throws
`std::bad_alloc` exactly when the product `rows * columns`, reduced modulo `2^32` and
reinterpreted as a signed 32-bit integer, is greater than 1,000,000, and so does `initialize`
on any matrix; when the true product is at most 1,000,000 (1,000,000 included) the
constructor returns a matrix and `initialize` returns without throwing. -/
theorem C17_limit_check_condition [Zero α] (h : Heap α) (m : DenseMatrix α) (R C : Nat)
    (hgr : h.grants (wrapped_signed_product R C).toNat = true) :
    (DenseMatrix.construct h R C = Except.error CppException.bad_alloc
        ↔ wrapped_signed_product R C > 1000000)
      ∧ ((m.initialise h R C).2 = some CppException.bad_alloc
        ↔ wrapped_signed_product R C > 1000000)
      ∧ (R * C ≤ 1000000 →
          (∃ m0, DenseMatrix.construct h R C = Except.ok m0)
          ∧ (m.initialise h R C).2 = none) := by
  rw [← to_int_u32_eq] at hgr ⊢
  refine ⟨construct_throw_iff h R C hgr, initialise_throw_iff h m R C hgr, ?_⟩
  intro hprod
  have hprod1 : R * C ≤ MAX_ELEMENTS := hprod
  rw [to_int_of_le hprod1, Int.toNat_ofNat] at hgr
  exact ⟨⟨_, construct_ok h R C hprod1 hgr⟩, initialise_returns h m R C hprod1 hgr⟩

theorem C17_limit_check_condition_witness :
    (DenseMatrix.construct generous_heap 1000 1000 = Except.error CppException.bad_alloc
        ↔ wrapped_signed_product 1000 1000 > 1000000)
      ∧ ((scenario_matrix.initialise generous_heap 1000 1000).2 = some CppException.bad_alloc
        ↔ wrapped_signed_product 1000 1000 > 1000000)
      ∧ (1000 * 1000 ≤ 1000000 →
          (∃ m0, DenseMatrix.construct generous_heap 1000 1000 = Except.ok m0)
          ∧ (scenario_matrix.initialise generous_heap 1000 1000).2 = none) :=
  C17_limit_check_condition generous_heap scenario_matrix 1000 1000 rfl

/-! ## Period of the rotation -/

/-- C18: on a Ready matrix with `R` rows, `R` at least 1, and a rotation offset below `R`,
`R` calls of `roll_right` succeed and give back the very same matrix (offset, storage and
dimensions), so every read is as before; and for `0 < k < R`, `k` calls succeed and give a
rotation offset different from the original one. -/
theorem C18_rotation_period (m : DenseMatrix α) (k : Nat)
    (hready : m.Ready) (hR : 1 ≤ m.num_rows_)
    (hoff : m.oldest_row_index_ < m.num_rows_) :
    (m.roll_right_times m.num_rows_ = some m
        ∧ ∀ m1, m.roll_right_times m.num_rows_ = some m1 →
            ∀ r c, m1.get r c = m.get r c)
      ∧ (0 < k → k < m.num_rows_ →
          ∃ m1, m.roll_right_times k = some m1
            ∧ m1.oldest_row_index_ ≠ m.oldest_row_index_) := by
  have hfull : m.roll_right_times m.num_rows_ = some m := by
    rw [roll_right_times_ok m.num_rows_ m hR hoff hready.rows_typed,
      Nat.add_mod_right, Nat.mod_eq_of_lt hoff]
  refine ⟨⟨hfull, ?_⟩, ?_⟩
  · intro m1 h1 r c
    rw [hfull] at h1
    simp only [Option.some.injEq] at h1
    rw [h1]
  · intro hk0 hk
    refine ⟨_, roll_right_times_ok k m hR hoff hready.rows_typed, ?_⟩
    show (m.oldest_row_index_ + k) % m.num_rows_ ≠ m.oldest_row_index_
    by_cases hlt : m.oldest_row_index_ + k < m.num_rows_
    · rw [Nat.mod_eq_of_lt hlt]
      omega
    · rw [Nat.mod_eq_sub_mod (by omega), Nat.mod_eq_of_lt (by omega)]
      omega

theorem C18_rotation_period_witness :
    (sample_matrix.roll_right_times sample_matrix.num_rows_ = some sample_matrix
        ∧ ∀ m1, sample_matrix.roll_right_times sample_matrix.num_rows_ = some m1 →
            ∀ r c, m1.get r c = sample_matrix.get r c)
      ∧ (0 < 2 → 2 < sample_matrix.num_rows_ →
          ∃ m1, sample_matrix.roll_right_times 2 = some m1
            ∧ m1.oldest_row_index_ ≠ sample_matrix.oldest_row_index_) :=
  C18_rotation_period sample_matrix 2 sample_matrix_ready (by decide) (by decide)

end QPLUM
